import Mathlib

/-!
Verification development for the distributed MQTT load generator
(Trabajo-de-Grado).  The Python sources are shallowly embedded:

* scripts/DISPOSITIVOS MQTT/mqtt_stress_async.py — `MetricsAggregator`
  (event-step machine over the five record operations, `_percentile`,
  snapshot latency statistics), `parse_ramp_percentages`, the validation
  prologue of `run_simulation`, and the `DeviceWorker` publish cadence.
* scripts/simcore.py — the `SimLoop.run` tick scheduling.
* scripts/mqtt/metrics_server.py — `GlobalMetricsCollector.summary`.

Machine floats are modelled as rationals (`ℚ`); Python dicts of counts as
their count functions or association lists; device-id sets as `Finset String`.
Wall-clock instants recorded by the aggregator are modelled as the index of
the recording event.
-/

deriving instance DecidableEq for Except

namespace MqttStress

/-- Events of `MetricsAggregator`: one constructor per public record method
of the class in mqtt_stress_async.py.  `reason` arguments are `Option String`
(`none` models Python `None`; the empty string models a falsy `""`). -/
inductive AggEvent where
  | connected (device : String)
  | disconnected (device : String) (reason : Option String) (graceful : Bool)
  | publishSuccess (device : String) (latencySeconds : ℚ) (payloadBytes : Nat)
  | publishFailure (device : String) (reason : Option String)
  | connectionFailure (device : String) (reason : Option String)
deriving DecidableEq

/-- Python `reason or default`: `None` and `""` are falsy. -/
def orDefault (reason : Option String) (default : String) : String :=
  match reason with
  | none => default
  | some r => if r = "" then default else r

/-- State of `MetricsAggregator` (mqtt_stress_async.py lines 90-161).
`disconnectCauses` models the `Counter` by its count function;
`collapsedAt` stores the index of the event that set it (the embedding of
`utcnow()` at that call). -/
structure AggState where
  totalDevices : Nat
  successCount : Nat
  failureCount : Nat
  latencies : List ℚ
  activeDevices : Finset String
  seenDevices : Finset String
  failedDevices : Finset String
  messagesPerDevice : String → Nat
  failedMessagesPerDevice : String → Nat
  bytesPerDevice : String → Nat
  disconnectCauses : String → Nat
  bytesSent : Nat
  peakConnected : Nat
  collapsedAt : Option Nat
  collapseReason : Option String

def initAgg (totalDevices : Nat) : AggState :=
  { totalDevices := totalDevices
    successCount := 0
    failureCount := 0
    latencies := []
    activeDevices := ∅
    seenDevices := ∅
    failedDevices := ∅
    messagesPerDevice := fun _ => 0
    failedMessagesPerDevice := fun _ => 0
    bytesPerDevice := fun _ => 0
    disconnectCauses := fun _ => 0
    bytesSent := 0
    peakConnected := 0
    collapsedAt := none
    collapseReason := none }

/-- Embeds `MetricsAggregator._mark_collapse` (lines 112-115): sets both collapse
fields only if `collapsed_at` is still `None`. -/
def markCollapse (s : AggState) (now : Nat) (reason : String) : AggState :=
  if s.collapsedAt = none then
    { s with collapsedAt := some now, collapseReason := some reason }
  else s

/-- Python `if reason: self.disconnect_causes[reason] += 1`. -/
def bumpCause (causes : String → Nat) (reason : Option String) : String → Nat :=
  match reason with
  | none => causes
  | some r => if r = "" then causes else fun x => if x = r then causes x + 1 else causes x

/-- One record call of `MetricsAggregator`; `now` is the current instant
(event index) used by `_mark_collapse`. -/
def stepAgg (s : AggState) (now : Nat) : AggEvent → AggState
  | .connected d =>
      let active := insert d s.activeDevices
      { s with
        activeDevices := active
        seenDevices := insert d s.seenDevices
        peakConnected := max s.peakConnected active.card }
  | .disconnected d reason graceful =>
      let s := { s with activeDevices := s.activeDevices.erase d }
      if graceful then s
      else
        let s := { s with
          failedDevices := insert d s.failedDevices
          disconnectCauses := bumpCause s.disconnectCauses reason }
        markCollapse s now (orDefault reason "disconnect")
  | .publishSuccess d latency payloadBytes =>
      { s with
        successCount := s.successCount + 1
        latencies := s.latencies ++ [latency]
        bytesSent := s.bytesSent + payloadBytes
        messagesPerDevice := fun x => if x = d then s.messagesPerDevice x + 1 else s.messagesPerDevice x
        bytesPerDevice := fun x => if x = d then s.bytesPerDevice x + payloadBytes else s.bytesPerDevice x }
  | .publishFailure d reason =>
      let s := { s with
        failureCount := s.failureCount + 1
        failedDevices := insert d s.failedDevices
        failedMessagesPerDevice := fun x => if x = d then s.failedMessagesPerDevice x + 1 else s.failedMessagesPerDevice x
        disconnectCauses := bumpCause s.disconnectCauses reason }
      markCollapse s now (orDefault reason "publish failure")
  | .connectionFailure d reason =>
      let s := { s with
        failureCount := s.failureCount + 1
        failedDevices := insert d s.failedDevices
        disconnectCauses := bumpCause s.disconnectCauses reason }
      markCollapse s now (orDefault reason "connection failure")

/-- Run a sequence of record calls from a given state, timestamping each
call with its index (starting at `t0`). -/
def runAggFrom (s : AggState) (t0 : Nat) : List AggEvent → AggState
  | [] => s
  | e :: es => runAggFrom (stepAgg s t0 e) (t0 + 1) es

/-- The aggregator state after a fresh `MetricsAggregator(total_devices)`
has recorded the events `es` in order. -/
def runAgg (totalDevices : Nat) (es : List AggEvent) : AggState :=
  runAggFrom (initAgg totalDevices) 0 es

/-- The collapse reason an event would pass to `_mark_collapse`, if it calls
it at all: non-graceful disconnects and publish/connection failures do,
everything else does not. -/
def triggerReason : AggEvent → Option String
  | .disconnected _ reason graceful =>
      if graceful then none else some (orDefault reason "disconnect")
  | .publishFailure _ reason => some (orDefault reason "publish failure")
  | .connectionFailure _ reason => some (orDefault reason "connection failure")
  | _ => none

theorem orDefault_ne_empty (reason : Option String) (d : String) (hd : d ≠ "") :
    orDefault reason d ≠ "" := by
  unfold orDefault
  cases reason with
  | none => exact hd
  | some r =>
    by_cases hr : r = "" <;> simp [hr, hd]

theorem triggerReason_ne_empty (e : AggEvent) (r : String)
    (h : triggerReason e = some r) : r ≠ "" := by
  cases e with
  | disconnected d reason graceful =>
    unfold triggerReason at h
    by_cases hg : graceful
    · simp [hg] at h
    · simp [hg] at h
      exact h ▸ orDefault_ne_empty reason "disconnect" (by decide)
  | publishFailure d reason =>
    unfold triggerReason at h
    simp at h
    exact h ▸ orDefault_ne_empty reason "publish failure" (by decide)
  | connectionFailure d reason =>
    unfold triggerReason at h
    simp at h
    exact h ▸ orDefault_ne_empty reason "connection failure" (by decide)
  | connected d => simp [triggerReason] at h
  | publishSuccess d l b => simp [triggerReason] at h

theorem markCollapse_activeDevices (s : AggState) (now : Nat) (r : String) :
    (markCollapse s now r).activeDevices = s.activeDevices := by
  unfold markCollapse; split <;> rfl

theorem markCollapse_seenDevices (s : AggState) (now : Nat) (r : String) :
    (markCollapse s now r).seenDevices = s.seenDevices := by
  unfold markCollapse; split <;> rfl

theorem markCollapse_peakConnected (s : AggState) (now : Nat) (r : String) :
    (markCollapse s now r).peakConnected = s.peakConnected := by
  unfold markCollapse; split <;> rfl

theorem markCollapse_totalDevices (s : AggState) (now : Nat) (r : String) :
    (markCollapse s now r).totalDevices = s.totalDevices := by
  unfold markCollapse; split <;> rfl

theorem markCollapse_of_some (s : AggState) (now : Nat) (r : String) (t : Nat)
    (h : s.collapsedAt = some t) :
    (markCollapse s now r).collapsedAt = some t ∧
    (markCollapse s now r).collapseReason = s.collapseReason := by
  unfold markCollapse
  simp [h]

theorem markCollapse_of_none (s : AggState) (now : Nat) (r : String)
    (h : s.collapsedAt = none) :
    (markCollapse s now r).collapsedAt = some now ∧
    (markCollapse s now r).collapseReason = some r := by
  unfold markCollapse
  simp [h]

/-- Once collapse is recorded, no record operation changes either field. -/
theorem stepAgg_collapse_frozen (s : AggState) (now : Nat) (e : AggEvent) (t : Nat)
    (h : s.collapsedAt = some t) :
    (stepAgg s now e).collapsedAt = some t ∧
    (stepAgg s now e).collapseReason = s.collapseReason := by
  cases e with
  | connected d => exact ⟨h, rfl⟩
  | disconnected d reason graceful =>
    cases graceful with
    | true => exact ⟨h, rfl⟩
    | false => exact markCollapse_of_some _ now _ t h
  | publishSuccess d l b => exact ⟨h, rfl⟩
  | publishFailure d reason => exact markCollapse_of_some _ now _ t h
  | connectionFailure d reason => exact markCollapse_of_some _ now _ t h

/-- A non-trigger event leaves the collapse fields untouched. -/
theorem stepAgg_collapse_of_no_trigger (s : AggState) (now : Nat) (e : AggEvent)
    (h : triggerReason e = none) :
    (stepAgg s now e).collapsedAt = s.collapsedAt ∧
    (stepAgg s now e).collapseReason = s.collapseReason := by
  cases e with
  | connected d => exact ⟨rfl, rfl⟩
  | disconnected d reason graceful =>
    cases graceful with
    | true => exact ⟨rfl, rfl⟩
    | false => simp [triggerReason] at h
  | publishSuccess d l b => exact ⟨rfl, rfl⟩
  | publishFailure d reason => simp [triggerReason] at h
  | connectionFailure d reason => simp [triggerReason] at h

/-- A trigger event hitting an uncollapsed state records the collapse with
its reason and the current instant. -/
theorem stepAgg_collapse_of_trigger (s : AggState) (now : Nat) (e : AggEvent) (r : String)
    (hA : s.collapsedAt = none) (h : triggerReason e = some r) :
    (stepAgg s now e).collapsedAt = some now ∧
    (stepAgg s now e).collapseReason = some r := by
  cases e with
  | connected d => simp [triggerReason] at h
  | disconnected d reason graceful =>
    cases graceful with
    | true => simp [triggerReason] at h
    | false =>
      have hr : orDefault reason "disconnect" = r := by simpa [triggerReason] using h
      subst hr
      exact markCollapse_of_none _ now _ hA
  | publishSuccess d l b => simp [triggerReason] at h
  | publishFailure d reason =>
    have hr : orDefault reason "publish failure" = r := by simpa [triggerReason] using h
    subst hr
    exact markCollapse_of_none _ now _ hA
  | connectionFailure d reason =>
    have hr : orDefault reason "connection failure" = r := by simpa [triggerReason] using h
    subst hr
    exact markCollapse_of_none _ now _ hA

theorem runAggFrom_collapse_frozen (es : List AggEvent) (s : AggState) (t0 : Nat) (t : Nat)
    (h : s.collapsedAt = some t) :
    (runAggFrom s t0 es).collapsedAt = some t ∧
    (runAggFrom s t0 es).collapseReason = s.collapseReason := by
  induction es generalizing s t0 with
  | nil => exact ⟨h, rfl⟩
  | cons e es ih =>
    have hstep := stepAgg_collapse_frozen s t0 e t h
    have := ih (stepAgg s t0 e) (t0 + 1) hstep.1
    exact ⟨this.1, this.2.trans hstep.2⟩

/-- Characterization of the collapse fields over an entire run: the reason is
that of the first trigger event, and the instant is the index of that event. -/
theorem runAggFrom_collapse (es : List AggEvent) (s : AggState) (t0 : Nat)
    (hA : s.collapsedAt = none) (hR : s.collapseReason = none) :
    (runAggFrom s t0 es).collapseReason = es.findSome? triggerReason ∧
    (runAggFrom s t0 es).collapsedAt =
      List.findIdx? (fun e => (triggerReason e).isSome) es t0 := by
  induction es generalizing s t0 with
  | nil => simpa [runAggFrom, List.findIdx?_nil] using ⟨hR, hA⟩
  | cons e es ih =>
    cases h : triggerReason e with
    | none =>
      have hstep := stepAgg_collapse_of_no_trigger s t0 e h
      have := ih (stepAgg s t0 e) (t0 + 1) (hstep.1.trans hA) (hstep.2.trans hR)
      constructor
      · rw [List.findSome?_cons, h]
        exact this.1
      · rw [List.findIdx?_cons]
        simpa [h] using this.2
    | some r =>
      have hstep := stepAgg_collapse_of_trigger s t0 e r hA h
      have hrec := runAggFrom_collapse_frozen es (stepAgg s t0 e) (t0 + 1) t0 hstep.1
      constructor
      · rw [List.findSome?_cons, h]
        exact hrec.2.trans hstep.2
      · rw [List.findIdx?_cons]
        simpa [h] using hrec.1

theorem findSome?_triggerReason_ne_empty (es : List AggEvent) :
    es.findSome? triggerReason ≠ some "" := by
  induction es with
  | nil => simp
  | cons e es ih =>
    rw [List.findSome?_cons]
    cases h : triggerReason e with
    | none => exact ih
    | some r =>
      intro hc
      exact triggerReason_ne_empty e r h (by simpa using hc)

/-- Invariant bundle for claim C7. -/
def AggInv (s : AggState) : Prop :=
  s.activeDevices ⊆ s.seenDevices ∧
  s.activeDevices.card ≤ s.peakConnected ∧
  s.peakConnected ≤ max s.totalDevices s.seenDevices.card

theorem stepAgg_disconnect_fail_fields (s : AggState) (now : Nat) (d : String)
    (reason : Option String) :
    (stepAgg s now (.disconnected d reason false)).activeDevices = s.activeDevices.erase d ∧
    (stepAgg s now (.disconnected d reason false)).seenDevices = s.seenDevices ∧
    (stepAgg s now (.disconnected d reason false)).peakConnected = s.peakConnected ∧
    (stepAgg s now (.disconnected d reason false)).totalDevices = s.totalDevices := by
  refine ⟨?_, ?_, ?_, ?_⟩
  · show (markCollapse _ _ _).activeDevices = _
    rw [markCollapse_activeDevices]
  · show (markCollapse _ _ _).seenDevices = _
    rw [markCollapse_seenDevices]
  · show (markCollapse _ _ _).peakConnected = _
    rw [markCollapse_peakConnected]
  · show (markCollapse _ _ _).totalDevices = _
    rw [markCollapse_totalDevices]

theorem stepAgg_publish_fail_fields (s : AggState) (now : Nat) (d : String)
    (reason : Option String) :
    (stepAgg s now (.publishFailure d reason)).activeDevices = s.activeDevices ∧
    (stepAgg s now (.publishFailure d reason)).seenDevices = s.seenDevices ∧
    (stepAgg s now (.publishFailure d reason)).peakConnected = s.peakConnected ∧
    (stepAgg s now (.publishFailure d reason)).totalDevices = s.totalDevices := by
  refine ⟨?_, ?_, ?_, ?_⟩
  · show (markCollapse _ _ _).activeDevices = _
    rw [markCollapse_activeDevices]
  · show (markCollapse _ _ _).seenDevices = _
    rw [markCollapse_seenDevices]
  · show (markCollapse _ _ _).peakConnected = _
    rw [markCollapse_peakConnected]
  · show (markCollapse _ _ _).totalDevices = _
    rw [markCollapse_totalDevices]

theorem stepAgg_connection_fail_fields (s : AggState) (now : Nat) (d : String)
    (reason : Option String) :
    (stepAgg s now (.connectionFailure d reason)).activeDevices = s.activeDevices ∧
    (stepAgg s now (.connectionFailure d reason)).seenDevices = s.seenDevices ∧
    (stepAgg s now (.connectionFailure d reason)).peakConnected = s.peakConnected ∧
    (stepAgg s now (.connectionFailure d reason)).totalDevices = s.totalDevices := by
  refine ⟨?_, ?_, ?_, ?_⟩
  · show (markCollapse _ _ _).activeDevices = _
    rw [markCollapse_activeDevices]
  · show (markCollapse _ _ _).seenDevices = _
    rw [markCollapse_seenDevices]
  · show (markCollapse _ _ _).peakConnected = _
    rw [markCollapse_peakConnected]
  · show (markCollapse _ _ _).totalDevices = _
    rw [markCollapse_totalDevices]

theorem stepAgg_inv (s : AggState) (now : Nat) (e : AggEvent) (h : AggInv s) :
    AggInv (stepAgg s now e) := by
  obtain ⟨hsub, hpeak, hbound⟩ := h
  cases e with
  | connected d =>
    refine ⟨Finset.insert_subset_insert d hsub, le_max_right _ _, max_le ?_ ?_⟩
    · exact hbound.trans (max_le_max le_rfl
        (Finset.card_le_card (Finset.subset_insert d s.seenDevices)))
    · exact le_trans (Finset.card_le_card (Finset.insert_subset_insert d hsub))
        (le_max_right _ _)
  | disconnected d reason graceful =>
    have hsub' : s.activeDevices.erase d ⊆ s.seenDevices :=
      (Finset.erase_subset d s.activeDevices).trans hsub
    have hcard' : (s.activeDevices.erase d).card ≤ s.peakConnected :=
      (Finset.card_le_card (Finset.erase_subset d s.activeDevices)).trans hpeak
    cases graceful with
    | true => exact ⟨hsub', hcard', hbound⟩
    | false =>
      obtain ⟨h1, h2, h3, h4⟩ := stepAgg_disconnect_fail_fields s now d reason
      rw [AggInv, h1, h2, h3, h4]
      exact ⟨hsub', hcard', hbound⟩
  | publishSuccess d l b => exact ⟨hsub, hpeak, hbound⟩
  | publishFailure d reason =>
    obtain ⟨h1, h2, h3, h4⟩ := stepAgg_publish_fail_fields s now d reason
    rw [AggInv, h1, h2, h3, h4]
    exact ⟨hsub, hpeak, hbound⟩
  | connectionFailure d reason =>
    obtain ⟨h1, h2, h3, h4⟩ := stepAgg_connection_fail_fields s now d reason
    rw [AggInv, h1, h2, h3, h4]
    exact ⟨hsub, hpeak, hbound⟩

theorem runAggFrom_inv (es : List AggEvent) (s : AggState) (t0 : Nat) (h : AggInv s) :
    AggInv (runAggFrom s t0 es) := by
  induction es generalizing s t0 with
  | nil => exact h
  | cons e es ih => exact ih (stepAgg s t0 e) (t0 + 1) (stepAgg_inv s t0 e h)

/-- C1 (amended): in the `MetricsAggregator`, `collapsed_at` is set exactly at
the first recorded non-graceful disconnect or publish/connection failure (its
value is that event's instant, here its index in the run); `collapse_reason`
equals the non-empty reason string of that first event; both fields are set at
most once and never change afterwards.  (This is the whole content: both
fields are a function of the first trigger event alone.) -/
theorem collapse_first_trigger_only (totalDevices : Nat) (es : List AggEvent) :
    (runAgg totalDevices es).collapseReason = es.findSome? triggerReason ∧
    (runAgg totalDevices es).collapsedAt =
      List.findIdx? (fun e => (triggerReason e).isSome) es 0 ∧
    (runAgg totalDevices es).collapseReason ≠ some "" := by
  have h := runAggFrom_collapse es (initAgg totalDevices) 0 rfl rfl
  exact ⟨h.1, h.2, h.1 ▸ findSome?_triggerReason_ne_empty es⟩

/-- C1 counterexample: the active-devices set becoming empty (here: the only
connected device disconnects gracefully, with cancellation never requested —
the aggregator receives no cancellation signal at all) does NOT set
`collapsed_at`, contradicting trigger (b) of the claim. -/
theorem collapse_not_set_on_empty_active :
    (runAgg 1 [AggEvent.connected "d0",
        AggEvent.disconnected "d0" none true]).activeDevices = ∅ ∧
    (runAgg 1 [AggEvent.connected "d0",
        AggEvent.disconnected "d0" none true]).collapsedAt = none := by
  constructor
  · show (insert "d0" (∅ : Finset String)).erase "d0" = ∅
    decide
  · rfl

/-- Embeds `MetricsAggregator._percentile` (lines 172-184).  Python's `data[i]` for
the in-range indices reached with `0 ≤ percent ≤ 100` (the callers use 50,
95 and 99) is modelled by `List.getD`. -/
def percentile (percent : ℚ) (data : List ℚ) : Option ℚ :=
  if data = [] then none
  else if data.length = 1 then some (data.getD 0 0)
  else
    let rank : ℚ := ((data.length : ℚ) - 1) * percent / 100
    let lowerIndex : ℤ := ⌊rank⌋
    let upperIndex : ℤ := ⌈rank⌉
    if lowerIndex = upperIndex then some (data.getD lowerIndex.toNat 0)
    else
      let lower := data.getD lowerIndex.toNat 0
      let upper := data.getD upperIndex.toNat 0
      some (lower + (upper - lower) * (rank - (lowerIndex : ℚ)))

/-- The rank used by `_percentile` for `n` samples: `(n-1)*percent/100`. -/
def interpolatedRank (n : Nat) (percent : ℚ) : ℚ := ((n : ℚ) - 1) * percent / 100

/-- The claim's interpolation formula
`a[floor r] + (a[ceil r] - a[floor r]) * (r - floor r)`. -/
def interpolate (data : List ℚ) (r : ℚ) : ℚ :=
  data.getD (⌊r⌋).toNat 0 +
    (data.getD (⌈r⌉).toNat 0 - data.getD (⌊r⌋).toNat 0) * (r - (⌊r⌋ : ℚ))

/-- Python `sorted(self._latencies)` in `_ensure_sorted_latencies`. -/
def sortedLatencies (s : AggState) : List ℚ :=
  s.latencies.insertionSort (· ≤ ·)

/-- Python `round(x, 4)`, modelled over `ℚ` as rounding to 4 decimal places.
(The float banker's-rounding tie behaviour is not modelled; it is irrelevant
to every claim, which only need that rounding is monotone.) -/
def round4 (x : ℚ) : ℚ := (round (x * 10000) : ℤ) / 10000

/-- A latency-percentile field of `MetricsAggregator.snapshot`
(lines 192-206): `round(self._percentile(p, latencies_sorted) * 1000, 4)`
when the cache is non-empty, `None` otherwise. -/
def snapshotPercentileMs (percent : ℚ) (s : AggState) : Option ℚ :=
  let latenciesSorted := sortedLatencies s
  if latenciesSorted = [] then none
  else (percentile percent latenciesSorted).map (fun v => round4 (v * 1000))

theorem percentile_eq_interpolate (percent : ℚ) (data : List ℚ)
    (hlen : 2 ≤ data.length) :
    percentile percent data =
      some (interpolate data (interpolatedRank data.length percent)) := by
  have hne : ¬ data = [] := by
    intro h
    rw [h] at hlen
    simp at hlen
  have hone : ¬ data.length = 1 := by omega
  rw [percentile]
  simp only [hne, hone, if_false]
  set r := ((data.length : ℚ) - 1) * percent / 100 with hr
  have hrank : interpolatedRank data.length percent = r := rfl
  by_cases hEq : (⌊r⌋ : ℤ) = ⌈r⌉
  · simp only [hEq, if_true, interpolate, hrank]
    rw [← hEq]
    ring_nf
  · simp only [hEq, if_false, interpolate, hrank]

/-- C3: the percentile computation.  For `n ≥ 2` samples the result is the
linear interpolation `a[floor r] + (a[ceil r] - a[floor r])*(r - floor r)` at
rank `r = (n-1)*percent/100`; a single sample is returned as is; on an empty
latency list the function returns `None` and all snapshot percentile fields
report not-available. -/
theorem percentile_formula (percent : ℚ) (data : List ℚ)
    (h0 : 0 ≤ percent) (h100 : percent ≤ 100) :
    (2 ≤ data.length →
      percentile percent data =
        some (interpolate data (interpolatedRank data.length percent))) ∧
    (∀ x : ℚ, data = [x] → percentile percent data = some x) ∧
    (data = [] → percentile percent data = none) ∧
    (∀ s : AggState, s.latencies = [] →
      snapshotPercentileMs 50 s = none ∧
      snapshotPercentileMs 95 s = none ∧
      snapshotPercentileMs 99 s = none) := by
  refine ⟨percentile_eq_interpolate percent data, ?_, ?_, ?_⟩
  · intro x hx
    subst hx
    rfl
  · intro hx
    subst hx
    rfl
  · intro s hs
    have hsort : sortedLatencies s = [] := by
      rw [sortedLatencies, hs]
      rfl
    refine ⟨?_, ?_, ?_⟩ <;> rw [snapshotPercentileMs] <;> simp [hsort]

/-- Witness for C3 at `percent = 95`, `data = [1, 3]`: the rank is
`0.95`, and the interpolated value is `1 + (3-1)*0.95 = 2.9`. -/
theorem percentile_formula_witness :
    (0 : ℚ) ≤ 95 ∧ (95 : ℚ) ≤ 100 ∧
    percentile 95 [(1 : ℚ), 3] = some (29 / 10) := by
  have h := (percentile_formula 95 [(1 : ℚ), 3] (by norm_num) (by norm_num)).1
    (by norm_num)
  refine ⟨by norm_num, by norm_num, h.trans ?_⟩
  rw [interpolate, interpolatedRank]
  norm_num
  rw [show ⌈(19 : ℚ)/20⌉ = 1 by rw [Int.ceil_eq_iff] <;> norm_num]
  norm_num

theorem getD_mono_of_sorted (data : List ℚ) (hs : data.Sorted (· ≤ ·))
    (i j : Nat) (hij : i ≤ j) (hj : j < data.length) :
    data.getD i 0 ≤ data.getD j 0 := by
  have hi : i < data.length := lt_of_le_of_lt hij hj
  rw [List.getD_eq_getElem data 0 hi, List.getD_eq_getElem data 0 hj]
  rcases lt_or_eq_of_le hij with hlt | hEq
  · exact (List.pairwise_iff_get.mp hs) ⟨i, hi⟩ ⟨j, hj⟩ hlt
  · subst hEq
    exact le_refl _

theorem rank_floor_nonneg (r : ℚ) (h0 : 0 ≤ r) : (0 : ℤ) ≤ ⌊r⌋ :=
  Int.le_floor.mpr (by exact_mod_cast h0)

theorem rank_ceil_le (data : List ℚ) (r : ℚ) (hr : r ≤ (data.length : ℚ) - 1) :
    ⌈r⌉ ≤ (data.length : ℤ) - 1 := by
  apply Int.ceil_le.mpr
  push_cast
  exact hr

theorem interpolate_bounds (data : List ℚ) (hs : data.Sorted (· ≤ ·))
    (hlen : 1 ≤ data.length) (r : ℚ) (h0 : 0 ≤ r)
    (hr : r ≤ (data.length : ℚ) - 1) :
    data.getD (⌊r⌋).toNat 0 ≤ interpolate data r ∧
    interpolate data r ≤ data.getD (⌈r⌉).toNat 0 := by
  have hfl : (0 : ℤ) ≤ ⌊r⌋ := rank_floor_nonneg r h0
  have hcl : ⌈r⌉ ≤ (data.length : ℤ) - 1 := rank_ceil_le data r hr
  have hfc : ⌊r⌋ ≤ ⌈r⌉ := Int.floor_le_ceil r
  have hcn : (⌈r⌉).toNat < data.length := by omega
  have hlo_hi : data.getD (⌊r⌋).toNat 0 ≤ data.getD (⌈r⌉).toNat 0 :=
    getD_mono_of_sorted data hs _ _ (by omega) hcn
  have hfrac0 : 0 ≤ r - (⌊r⌋ : ℚ) := by
    have := Int.floor_le r
    linarith
  have hfrac1 : r - (⌊r⌋ : ℚ) ≤ 1 := by
    have := Int.lt_floor_add_one r
    push_cast at this
    linarith
  rw [interpolate]
  constructor
  · nlinarith
  · nlinarith

theorem interpolate_mono (data : List ℚ) (hs : data.Sorted (· ≤ ·))
    (hlen : 1 ≤ data.length) (r r' : ℚ) (h0 : 0 ≤ r) (hrr : r ≤ r')
    (hr' : r' ≤ (data.length : ℚ) - 1) :
    interpolate data r ≤ interpolate data r' := by
  have hrN : r ≤ (data.length : ℚ) - 1 := le_trans hrr hr'
  have h0' : 0 ≤ r' := le_trans h0 hrr
  have hfl : (0 : ℤ) ≤ ⌊r⌋ := rank_floor_nonneg r h0
  have hfl' : (0 : ℤ) ≤ ⌊r'⌋ := rank_floor_nonneg r' h0'
  have hcl : ⌈r⌉ ≤ (data.length : ℤ) - 1 := rank_ceil_le data r hrN
  have hcl' : ⌈r'⌉ ≤ (data.length : ℤ) - 1 := rank_ceil_le data r' hr'
  have hflc' : ⌊r'⌋ ≤ ⌈r'⌉ := Int.floor_le_ceil r'
  by_cases hcase : ⌈r⌉ ≤ ⌊r'⌋
  · calc interpolate data r ≤ data.getD (⌈r⌉).toNat 0 :=
          (interpolate_bounds data hs hlen r h0 hrN).2
      _ ≤ data.getD (⌊r'⌋).toNat 0 :=
          getD_mono_of_sorted data hs _ _ (by omega) (by omega)
      _ ≤ interpolate data r' :=
          (interpolate_bounds data hs hlen r' h0' hr').1
  · have hff : ⌊r⌋ = ⌊r'⌋ := by
      have h1 : ⌊r⌋ ≤ ⌊r'⌋ := Int.floor_mono hrr
      have h2 : ⌈r⌉ ≤ ⌊r⌋ + 1 := Int.ceil_le_floor_add_one r
      omega
    have hfc : ⌊r⌋ ≤ ⌈r⌉ := Int.floor_le_ceil r
    by_cases hint : ⌈r⌉ = ⌊r⌋
    · have hrint : r = (⌊r⌋ : ℚ) := by
        have h1 := Int.floor_le r
        have h2 := Int.le_ceil r
        rw [hint] at h2
        linarith
      have : interpolate data r = data.getD (⌊r⌋).toNat 0 := by
        rw [interpolate, hint, ← hrint]
        ring
      rw [this, hff]
      exact (interpolate_bounds data hs hlen r' h0' hr').1
    · have hceq : ⌈r⌉ = ⌊r⌋ + 1 := by
        have := Int.ceil_le_floor_add_one r
        omega
      have hceq' : ⌈r'⌉ = ⌊r'⌋ + 1 := by
        have h1 : ⌈r⌉ ≤ ⌈r'⌉ := Int.ceil_mono hrr
        have h2 := Int.ceil_le_floor_add_one r'
        omega
      have hlo_hi : data.getD (⌊r⌋).toNat 0 ≤ data.getD (⌈r⌉).toNat 0 :=
        getD_mono_of_sorted data hs _ _ (by omega) (by omega)
      rw [interpolate, interpolate, hceq', ← hff, ← hceq]
      nlinarith

theorem percentile_of_ne_nil (percent : ℚ) (data : List ℚ) (hne : data ≠ []) :
    ∃ v, percentile percent data = some v := by
  rw [percentile]
  simp only [hne, if_false]
  split
  · exact ⟨_, rfl⟩
  · split
    · exact ⟨_, rfl⟩
    · exact ⟨_, rfl⟩

theorem percentile_mono (data : List ℚ) (hs : data.Sorted (· ≤ ·))
    (hne : data ≠ []) (p q : ℚ) (h0 : 0 ≤ p) (hpq : p ≤ q) (hq : q ≤ 100)
    (x y : ℚ) (hx : percentile p data = some x) (hy : percentile q data = some y) :
    x ≤ y := by
  have hlen : 1 ≤ data.length := by
    cases data with
    | nil => exact absurd rfl hne
    | cons a l => simp
  by_cases h1 : data.length = 1
  · rw [percentile] at hx hy
    simp only [hne, if_false, h1, if_true] at hx hy
    rw [← Option.some.inj hx, ← Option.some.inj hy]
  · have h2 : 2 ≤ data.length := by omega
    rw [percentile_eq_interpolate p data h2] at hx
    rw [percentile_eq_interpolate q data h2] at hy
    rw [← Option.some.inj hx, ← Option.some.inj hy]
    have hn1 : (0 : ℚ) ≤ (data.length : ℚ) - 1 := by
      have : (1 : ℚ) ≤ (data.length : ℚ) := by exact_mod_cast hlen
      linarith
    apply interpolate_mono data hs hlen
    · rw [interpolatedRank]
      positivity
    · rw [interpolatedRank, interpolatedRank]
      apply div_le_div_of_nonneg_right ?_ (by norm_num)
      nlinarith
    · rw [interpolatedRank]
      rw [div_le_iff (by norm_num)]
      nlinarith

theorem round4_mono (x y : ℚ) (h : x ≤ y) : round4 x ≤ round4 y := by
  rw [round4, round4]
  apply div_le_div_of_nonneg_right ?_ (by norm_num)
  have hr : round (x * 10000) ≤ round (y * 10000) := by
    rw [round_eq, round_eq]
    exact Int.floor_mono (by linarith)
  exact_mod_cast hr

theorem sortedLatencies_sorted (s : AggState) :
    (sortedLatencies s).Sorted (· ≤ ·) :=
  List.sorted_insertionSort (· ≤ ·) s.latencies

theorem sortedLatencies_ne_nil (s : AggState) (h : s.latencies ≠ []) :
    sortedLatencies s ≠ [] := by
  intro hc
  apply h
  have := List.perm_insertionSort (· ≤ ·) s.latencies
  rw [sortedLatencies] at hc
  rw [hc] at this
  exact (List.Perm.nil_eq this).symm

/-- C8: whenever at least one latency sample has been recorded (so that all
three statistics are defined), the snapshot satisfies
`p50_latency_ms ≤ p95_latency_ms ≤ p99_latency_ms`. -/
theorem snapshot_percentile_order (s : AggState) (h : s.latencies ≠ []) :
    ∃ a b c, snapshotPercentileMs 50 s = some a ∧
      snapshotPercentileMs 95 s = some b ∧
      snapshotPercentileMs 99 s = some c ∧ a ≤ b ∧ b ≤ c := by
  have hne := sortedLatencies_ne_nil s h
  have hsorted := sortedLatencies_sorted s
  obtain ⟨v50, hv50⟩ := percentile_of_ne_nil 50 (sortedLatencies s) hne
  obtain ⟨v95, hv95⟩ := percentile_of_ne_nil 95 (sortedLatencies s) hne
  obtain ⟨v99, hv99⟩ := percentile_of_ne_nil 99 (sortedLatencies s) hne
  have h5095 : v50 ≤ v95 := percentile_mono _ hsorted hne 50 95 (by norm_num)
    (by norm_num) (by norm_num) _ _ hv50 hv95
  have h9599 : v95 ≤ v99 := percentile_mono _ hsorted hne 95 99 (by norm_num)
    (by norm_num) (by norm_num) _ _ hv95 hv99
  refine ⟨round4 (v50 * 1000), round4 (v95 * 1000), round4 (v99 * 1000),
    ?_, ?_, ?_, ?_, ?_⟩
  · rw [snapshotPercentileMs]
    simp [hne, hv50]
  · rw [snapshotPercentileMs]
    simp [hne, hv95]
  · rw [snapshotPercentileMs]
    simp [hne, hv99]
  · exact round4_mono _ _ (by linarith)
  · exact round4_mono _ _ (by linarith)

/-- Witness for C8: a concrete aggregator state holding the two latency
samples `2` and `1` (sorted cache `[1, 2]`). -/
theorem snapshot_percentile_order_witness :
    ∃ a b c,
      snapshotPercentileMs 50 { initAgg 2 with latencies := [(2 : ℚ), 1] } = some a ∧
      snapshotPercentileMs 95 { initAgg 2 with latencies := [(2 : ℚ), 1] } = some b ∧
      snapshotPercentileMs 99 { initAgg 2 with latencies := [(2 : ℚ), 1] } = some c ∧
      a ≤ b ∧ b ≤ c :=
  snapshot_percentile_order { initAgg 2 with latencies := [(2 : ℚ), 1] } (by simp)

/-- One percentage value as handled by the loop body of
`parse_ramp_percentages` (mqtt_stress_async.py lines 599-615): reject
non-positive values, scale values ≤ 1 by 100, reject results above 100.
(The string handling — whitespace stripping, an optional trailing percent
sign, float parsing — is outside the numeric model.) -/
def normalizePct (v : ℚ) : Except String ℚ :=
  if v ≤ 0 then .error "Los porcentajes deben ser mayores que 0."
  else
    let v' := if v ≤ 1 then v * 100 else v
    if 100 < v' then .error "Los porcentajes no pueden exceder el 100%."
    else .ok v'

/-- The `percentages` list built by the value loop, with the first error
propagated. -/
def normalizeAll : List ℚ → Except String (List ℚ)
  | [] => .ok []
  | v :: rest =>
    match normalizePct v with
    | .error e => .error e
    | .ok v' =>
      match normalizeAll rest with
      | .error e => .error e
      | .ok rest' => .ok (v' :: rest')

/-- Python `not any(later < earlier for earlier, later in zip(l, l[1:]))`. -/
def nondecrB : List ℚ → Bool
  | a :: b :: rest => decide (a ≤ b) && nondecrB (b :: rest)
  | _ => true

/-- The per-stage count: `min(total_devices, max(1, ceil(total_devices * pct / 100)))`
(lines 622-623).  This is also exactly the claim's
"ceil(N*p/100) clamped into [1, N]". -/
def specStage (totalDevices : Nat) (pct : ℚ) : Nat :=
  min totalDevices (max 1 (Int.toNat ⌈(totalDevices : ℚ) * pct / 100⌉))

/-- The ramp-building loop (lines 620-626): each stage count, clamped below
by the last entry of the sequence built so far. -/
def rampFold (totalDevices : Nat) : List ℚ → List Nat → List Nat
  | [], seq => seq
  | pct :: rest, seq =>
    let count := specStage totalDevices pct
    let count :=
      match seq.getLast? with
      | some last => if count < last then last else count
      | none => count
    rampFold totalDevices rest (seq ++ [count])

/-- Embeds `parse_ramp_percentages` (lines 595-629) on the parsed numeric values. -/
def parse_ramp_percentages (values : List ℚ) (totalDevices : Nat) :
    Except String (List Nat) :=
  if values = [] then .ok [totalDevices]
  else
    match normalizeAll values with
    | .error e => .error e
    | .ok percentages =>
      if percentages = [] then .ok [totalDevices]
      else if nondecrB percentages then
        let seq := rampFold totalDevices percentages []
        if seq.getLast?.getD 0 < totalDevices then .ok (seq ++ [totalDevices])
        else .ok seq
      else .error "Los porcentajes deben ser una secuencia no decreciente."

/-- The claim's "made non-decreasing": running maximum, seeded with `prev`. -/
def monotonizeFrom (prev : Nat) : List Nat → List Nat
  | [] => []
  | c :: rest => max prev c :: monotonizeFrom (max prev c) rest

/-- The ramp sequence described by claim C4: the clamped stages, made
non-decreasing, with `N` appended when the last stage is below `N`. -/
def specRampSeq (ps : List ℚ) (totalDevices : Nat) : List Nat :=
  let stages := monotonizeFrom 0 (ps.map (specStage totalDevices))
  if stages.getLast?.getD 0 < totalDevices then stages ++ [totalDevices] else stages

theorem rampFold_eq_monotonize (totalDevices : Nat) (ps : List ℚ) (seq : List Nat) :
    rampFold totalDevices ps seq =
      seq ++ monotonizeFrom (seq.getLast?.getD 0) (ps.map (specStage totalDevices)) := by
  induction ps generalizing seq with
  | nil => simp [rampFold, monotonizeFrom]
  | cons pct rest ih =>
    rw [rampFold]
    have hclamp :
        (match seq.getLast? with
          | some last =>
              if specStage totalDevices pct < last then last else specStage totalDevices pct
          | none => specStage totalDevices pct) =
          max (seq.getLast?.getD 0) (specStage totalDevices pct) := by
      cases hl : seq.getLast? with
      | none => simp
      | some last =>
        simp only [Option.getD_some]
        rcases Nat.lt_or_ge (specStage totalDevices pct) last with hlt | hge
        · simp [hlt, Nat.max_eq_left (le_of_lt hlt)]
        · simp [Nat.not_lt.mpr hge, Nat.max_eq_right hge]
    rw [hclamp, ih]
    rw [List.getLast?_concat, Option.getD_some, List.map_cons, monotonizeFrom]
    simp [List.append_assoc]

theorem normalizeAll_id (ps : List ℚ) (hvals : ∀ p ∈ ps, 1 < p ∧ p ≤ 100) :
    normalizeAll ps = .ok ps := by
  induction ps with
  | nil => rfl
  | cons p rest ih =>
    obtain ⟨h1, h100⟩ := hvals p (List.mem_cons_self p rest)
    have hrest := ih (fun q hq => hvals q (List.mem_cons_of_mem p hq))
    rw [normalizeAll]
    have hstep : normalizePct p = .ok p := by
      rw [normalizePct]
      have hn0 : ¬ p ≤ 0 := by linarith
      have hn1 : ¬ p ≤ 1 := by linarith
      have hn100 : ¬ (100 : ℚ) < p := by linarith
      simp [hn0, hn1, hn100]
    rw [hstep, hrest]

theorem parse_ramp_eq_specRampSeq (ps : List ℚ) (totalDevices : Nat)
    (hne : ps ≠ []) (hvals : ∀ p ∈ ps, 1 < p ∧ p ≤ 100)
    (hsort : nondecrB ps = true) :
    parse_ramp_percentages ps totalDevices = .ok (specRampSeq ps totalDevices) := by
  rw [parse_ramp_percentages]
  simp only [hne, if_false]
  rw [normalizeAll_id ps hvals]
  simp only [hne, if_false, hsort, if_true]
  rw [rampFold_eq_monotonize]
  have hseed : ([] : List Nat).getLast?.getD 0 = 0 := rfl
  rw [List.nil_append, hseed, specRampSeq]
  by_cases hc :
      (monotonizeFrom 0 (ps.map (specStage totalDevices))).getLast?.getD 0 < totalDevices
  · rw [if_pos hc, if_pos hc]
  · rw [if_neg hc, if_neg hc]

theorem specStage_10_25 : specStage 10 (25 : ℚ) = 3 := by
  rw [specStage, show ((10 : ℕ) : ℚ) * 25 / 100 = 5/2 by norm_num,
    show ⌈(5/2 : ℚ)⌉ = 3 from by rw [Int.ceil_eq_iff] <;> norm_num]
  rfl

theorem specStage_10_50 : specStage 10 (50 : ℚ) = 5 := by
  rw [specStage, show ((10 : ℕ) : ℚ) * 50 / 100 = 5 by norm_num,
    show ⌈(5 : ℚ)⌉ = 5 from by rw [Int.ceil_eq_iff] <;> norm_num]
  rfl

theorem specStage_10_100 : specStage 10 (100 : ℚ) = 10 := by
  rw [specStage, show ((10 : ℕ) : ℚ) * 100 / 100 = 10 by norm_num,
    show ⌈(10 : ℚ)⌉ = 10 from by rw [Int.ceil_eq_iff] <;> norm_num]
  rfl

theorem specRampSeq_concrete : specRampSeq [(25 : ℚ), 50, 100] 10 = [3, 5, 10] := by
  rw [specRampSeq, List.map_cons, List.map_cons, List.map_cons, List.map_nil,
    specStage_10_25, specStage_10_50, specStage_10_100]
  rfl

/-- C4: on a non-empty non-decreasing list of percentage values (strictly
above 1, so they are not taken for fractions, and at most 100),
`parse_ramp_percentages` returns exactly the ramp described by the claim:
per-stage `ceil(N*p/100)` clamped into `[1, N]`, made non-decreasing, with
`N` appended when the last stage is below `N`.  In particular
`N = 10, percentages = 25 50 100` yields `[3, 5, 10]`. -/
theorem parse_ramp_percentages_spec (ps : List ℚ) (totalDevices : Nat)
    (hne : ps ≠ []) (hvals : ∀ p ∈ ps, 1 < p ∧ p ≤ 100)
    (hsort : nondecrB ps = true) :
    parse_ramp_percentages ps totalDevices = .ok (specRampSeq ps totalDevices) ∧
    parse_ramp_percentages [25, 50, 100] 10 = .ok [3, 5, 10] := by
  refine ⟨parse_ramp_eq_specRampSeq ps totalDevices hne hvals hsort, ?_⟩
  rw [parse_ramp_eq_specRampSeq [25, 50, 100] 10 (by simp)
    (by
      intro p hp
      simp only [List.mem_cons, List.not_mem_nil, or_false] at hp
      rcases hp with rfl | rfl | rfl <;> norm_num)
    (by norm_num [nondecrB]), specRampSeq_concrete]

/-- Witness for C4 at `N = 10`, `percentages = [25, 50, 100]`. -/
theorem parse_ramp_percentages_spec_witness :
    parse_ramp_percentages [25, 50, 100] 10 = .ok (specRampSeq [25, 50, 100] 10) ∧
    parse_ramp_percentages [25, 50, 100] 10 = .ok [3, 5, 10] :=
  parse_ramp_percentages_spec [25, 50, 100] 10 (by simp)
    (by
      intro p hp
      simp only [List.mem_cons, List.not_mem_nil, or_false] at hp
      rcases hp with rfl | rfl | rfl <;> norm_num)
    (by norm_num [nondecrB])

theorem specStage_10_half : specStage 10 (1/2 : ℚ) = 1 := by
  rw [specStage, show ((10 : ℕ) : ℚ) * (1/2) / 100 = 1/20 by norm_num,
    show ⌈(1/20 : ℚ)⌉ = 1 from by rw [Int.ceil_eq_iff] <;> norm_num]
  rfl

theorem parse_ramp_one_400th : parse_ramp_percentages [(1/200 : ℚ)] 10 = .ok [1, 10] := by
  have hnp : normalizePct (1/200 : ℚ) = .ok (1/2 : ℚ) := by
    rw [normalizePct]
    norm_num
  have hall : normalizeAll [(1/200 : ℚ)] = .ok [(1/2 : ℚ)] := by
    rw [normalizeAll, hnp]
    rfl
  rw [parse_ramp_percentages, if_neg (by simp), hall]
  show (if _ = ([] : List ℚ) then _ else _) = _
  rw [if_neg (by simp), show nondecrB [(1/2 : ℚ)] = true from rfl, if_pos rfl,
    rampFold, rampFold]
  show (if (([] ++ [specStage 10 (1/2 : ℚ)]).getLast?.getD 0) < 10 then _ else _) = _
  rw [List.nil_append, specStage_10_half]
  rfl

theorem parse_ramp_half : parse_ramp_percentages [100 * (1/200 : ℚ)] 10 = .ok [5, 10] := by
  have hnp : normalizePct (100 * (1/200 : ℚ)) = .ok (50 : ℚ) := by
    rw [normalizePct]
    norm_num
  have hall : normalizeAll [100 * (1/200 : ℚ)] = .ok [(50 : ℚ)] := by
    rw [normalizeAll, hnp]
    rfl
  rw [parse_ramp_percentages, if_neg (by simp), hall]
  show (if _ = ([] : List ℚ) then _ else _) = _
  rw [if_neg (by simp), show nondecrB [(50 : ℚ)] = true from rfl, if_pos rfl,
    rampFold, rampFold]
  show (if (([] ++ [specStage 10 (50 : ℚ)]).getLast?.getD 0) < 10 then _ else _) = _
  rw [List.nil_append, specStage_10_50]
  rfl

/-- C9 counterexample: `1/200` lies in `(0, 1]`, yet the ramps of
`[1/200]` and `[100 * (1/200)]` differ for `N = 10`: the raw value `1/200`
is itself expanded by the `≤ 1` branch to the percentage `0.5`, producing
stage `max(1, ceil(0.05)) = 1`, while `100 * (1/200) = 1/2` is expanded to
the percentage `50`, producing stage `5`. -/
theorem ramp_scale_counterexample :
    (0 < (1/200 : ℚ) ∧ (1/200 : ℚ) ≤ 1) ∧
    parse_ramp_percentages [(1/200 : ℚ)] 10 = .ok [1, 10] ∧
    parse_ramp_percentages [100 * (1/200 : ℚ)] 10 = .ok [5, 10] ∧
    parse_ramp_percentages [100 * (1/200 : ℚ)] 10 ≠
      parse_ramp_percentages [(1/200 : ℚ)] 10 := by
  refine ⟨by norm_num, parse_ramp_one_400th, parse_ramp_half, ?_⟩
  rw [parse_ramp_one_400th, parse_ramp_half]
  simp

/-- C9 (amended): the claimed scaling equivalence holds for values in
`(1/100, 1]` — those whose hundredfold is again above 1 and therefore not
re-scaled. -/
theorem ramp_scale_equiv (vs : List ℚ) (totalDevices : Nat)
    (hN : 0 < totalDevices) (hvals : ∀ v ∈ vs, 1/100 < v ∧ v ≤ 1) :
    parse_ramp_percentages (vs.map (fun v => v * 100)) totalDevices =
      parse_ramp_percentages vs totalDevices := by
  have hnorm : ∀ (l : List ℚ), (∀ v ∈ l, 1/100 < v ∧ v ≤ 1) →
      normalizeAll (l.map (fun v => v * 100)) = normalizeAll l := by
    intro l hl
    induction l with
    | nil => rfl
    | cons v rest ih =>
      obtain ⟨hlo, hhi⟩ := hl v (List.mem_cons_self v rest)
      have hrest := ih (fun q hq => hl q (List.mem_cons_of_mem v hq))
      rw [List.map_cons, normalizeAll, normalizeAll]
      have hleft : normalizePct (v * 100) = .ok (v * 100) := by
        rw [normalizePct]
        have h0 : ¬ v * 100 ≤ 0 := by nlinarith
        have h1 : ¬ v * 100 ≤ 1 := by nlinarith
        have h100 : ¬ (100 : ℚ) < v * 100 := by nlinarith
        simp [h0, h1, h100]
      have hright : normalizePct v = .ok (v * 100) := by
        rw [normalizePct]
        have h0 : ¬ v ≤ 0 := by linarith
        have h1 : v ≤ 1 := hhi
        have h100 : ¬ (100 : ℚ) < v * 100 := by nlinarith
        simp [h0, h1, h100]
      rw [hleft, hright, hrest]
  by_cases hvs : vs = []
  · subst hvs
    rfl
  · have hmapne : vs.map (fun v => v * 100) ≠ [] := by
      simpa using hvs
    rw [parse_ramp_percentages, parse_ramp_percentages]
    simp only [hvs, hmapne, if_false]
    rw [hnorm vs hvals]

/-- Witness for C9 (amended) at `vs = [1/4, 1/2, 1]`, `N = 10`. -/
theorem ramp_scale_equiv_witness :
    parse_ramp_percentages ([(1/4 : ℚ), 1/2, 1].map (fun v => v * 100)) 10 =
      parse_ramp_percentages [(1/4 : ℚ), 1/2, 1] 10 :=
  ramp_scale_equiv [(1/4 : ℚ), 1/2, 1] 10 (by norm_num)
    (by
      intro v hv
      simp only [List.mem_cons, List.not_mem_nil, or_false] at hv
      rcases hv with rfl | rfl | rfl <;> norm_num)

/-- C7: after any sequence of the five record operations,
`active_devices ⊆ seen_devices` and
`|active_devices| ≤ peak_connected ≤ max(total_devices, |seen_devices|)`. -/
theorem aggregator_invariants (totalDevices : Nat) (es : List AggEvent) :
    (runAgg totalDevices es).activeDevices ⊆ (runAgg totalDevices es).seenDevices ∧
    (runAgg totalDevices es).activeDevices.card ≤ (runAgg totalDevices es).peakConnected ∧
    (runAgg totalDevices es).peakConnected ≤
      max (runAgg totalDevices es).totalDevices (runAgg totalDevices es).seenDevices.card :=
  runAggFrom_inv es (initAgg totalDevices) 0
    ⟨Finset.Subset.refl _, le_rfl, Nat.zero_le _⟩

end MqttStress

namespace SimCore

/-- The loop variables of `SimLoop.run` (simcore.py lines 567-581) that
determine the publish schedule.  `nextTick` is the absolute deadline the
loop waits for before the next publish. -/
structure SimTickState where
  tickIndex : Nat
  nextTick : ℚ

/-- Before the first iteration: `next_tick = start_time; tick_index = 0`. -/
def simTickInit (startTime : ℚ) : SimTickState :=
  { tickIndex := 0, nextTick := startTime }

/-- One loop iteration after a publish:
`tick_index += 1; next_tick = start_time + (tick_index + 1) * publish_interval`. -/
def simTickStep (startTime interval : ℚ) (st : SimTickState) : SimTickState :=
  let t := st.tickIndex + 1
  { tickIndex := t, nextTick := startTime + ((t : ℚ) + 1) * interval }

/-- The deadline the loop waits for before its `(k+1)`-th publish: the
`nextTick` value after `k` completed iterations. -/
def simDeadline (startTime interval : ℚ) : Nat → ℚ
  | 0 => simTickInit startTime |>.nextTick
  | k + 1 => simTickStep startTime interval
      { tickIndex := k, nextTick := simDeadline startTime interval k } |>.nextTick

/-- The `DeviceWorker.run` publish loop of mqtt_stress_async.py
(lines 477-488) waits a fixed `publish_interval` after each publish
(`asyncio.wait_for(stop_event.wait(), timeout=self.interval)`), so the
`(k+1)`-th publish starts one work duration plus one interval after the
`k`-th one.  `work k` is the (non-negative) time the `k`-th publish took. -/
def workerPublishTime (start interval : ℚ) (work : Nat → ℚ) : Nat → ℚ
  | 0 => start
  | k + 1 => workerPublishTime start interval work k + work k + interval

theorem simDeadline_succ (startTime interval : ℚ) (k : Nat) :
    simDeadline startTime interval (k + 1) =
      startTime + ((k : ℚ) + 2) * interval := by
  rw [simDeadline, simTickStep]
  push_cast
  ring

/-- C5 counterexample: with `S = 0` and `I = 1` the second deadline computed
by `SimLoop.run` is `2`, not the claimed `S + 1*I = 1` (the tick at `S + I`
is skipped); and a `DeviceWorker` whose publishes each take one time unit
starts its second publish at time `2`, not at `S + 1*I = 1`, because it
sleeps a fixed interval instead of aiming at an absolute deadline. -/
theorem cadence_counterexample :
    simDeadline 0 1 1 = 2 ∧ ¬ simDeadline 0 1 1 = 0 + (1 : ℚ) * 1 ∧
    workerPublishTime 0 1 (fun _ => 1) 1 = 2 ∧
    ¬ workerPublishTime 0 1 (fun _ => 1) 1 = 0 + (1 : ℚ) * 1 := by
  have h1 : simDeadline 0 1 1 = 2 := by
    rw [simDeadline_succ]
    norm_num
  have h2 : workerPublishTime 0 1 (fun _ => 1) 1 = 2 := by
    rw [workerPublishTime, workerPublishTime]
    norm_num
  refine ⟨h1, ?_, h2, ?_⟩
  · rw [h1]
    norm_num
  · rw [h2]
    norm_num

/-- C5 (amended): `SimLoop.run` does compute each deadline as an absolute
offset from the shared start time — the first publish is due at `S`, and for
every `k ≥ 1` the `(k+1)`-th publish is due at `S + (k+1)·I` (i.e. after
completing tick `k` it sets `next_tick = S + (k+2)·I`, where the claim said
`S + (k+1)·I`), so drift does not accumulate but the instant `S + I` carries
no tick; `DeviceWorker.run` in mqtt_stress_async.py instead sleeps the fixed
interval `I` between publishes, so each publish slips by the previous
publish's duration. -/
theorem cadence_amended (S I : ℚ) (work : Nat → ℚ) (k : Nat) (hk : 1 ≤ k) :
    simDeadline S I 0 = S ∧
    simDeadline S I k = S + ((k : ℚ) + 1) * I ∧
    workerPublishTime S I work (k + 1) =
      workerPublishTime S I work k + work k + I := by
  refine ⟨rfl, ?_, rfl⟩
  obtain ⟨j, rfl⟩ : ∃ j, k = j + 1 := ⟨k - 1, by omega⟩
  rw [simDeadline_succ]
  push_cast
  ring

/-- Witness for C5 (amended) at `S = 3`, `I = 2`, `k = 1`, unit work. -/
theorem cadence_amended_witness :
    simDeadline 3 2 0 = 3 ∧
    simDeadline 3 2 1 = 3 + ((1 : ℚ) + 1) * 2 ∧
    workerPublishTime 3 2 (fun _ => 1) (1 + 1) =
      workerPublishTime 3 2 (fun _ => 1) 1 + (fun _ => (1 : ℚ)) 1 + 2 := by
  have h := cadence_amended 3 2 (fun _ => 1) 1 le_rfl
  norm_num at h ⊢
  exact h

end SimCore

namespace MqttStress

/-- The command-line namespace fields read by the validation prologue of
`run_simulation` (mqtt_stress_async.py lines 722-738).  `ramp` and
`ramp_percentages` are `some` exactly when the flag was supplied (argparse
`nargs=+` guarantees a supplied list is non-empty, hence truthy). -/
structure SimArgs where
  interval : ℚ
  ramp_wait : ℚ
  duration : ℚ
  device_count : Int
  count : Option Int
  ramp : Option (List Int)
  ramp_percentages : Option (List String)
  metrics_refresh : Int
  disable_dashboard : Bool

/-- Python `args.count is not None and args.count <= 0`. -/
def countInvalid : Option Int → Bool
  | some c => decide (c ≤ 0)
  | none => false

/-- The chain of `raise SystemExit(...)` guards, in source order; `some msg`
is the message of the first failing check. -/
def validateArgs (a : SimArgs) : Option String :=
  if a.interval ≤ 0 then some "--interval debe ser mayor a 0."
  else if a.ramp_wait < 0 then some "--ramp-wait no puede ser negativo."
  else if a.duration < 0 then some "--duration no puede ser negativo."
  else if a.device_count < 0 then some "--device-count no puede ser negativo."
  else if countInvalid a.count then some "--count debe ser mayor a 0."
  else if a.ramp.isSome && a.ramp_percentages.isSome then
    some "Usa --ramp o --ramp-percentages, pero no ambos al mismo tiempo."
  else if !a.disable_dashboard && decide (a.metrics_refresh ≤ 0) then
    some "--metrics-refresh debe ser mayor a 0 cuando el dashboard está habilitado."
  else none

/-- Outcome of the prologue: a `SystemExit(msg)` raised by a validation
check makes the Python process exit with status 1 after printing `msg`;
only `started` goes on to build workers and open MQTT connections. -/
inductive RunOutcome where
  | rejected (exitCode : Nat) (message : String)
  | started
deriving DecidableEq

def runSimulationPrologue (a : SimArgs) : RunOutcome :=
  match validateArgs a with
  | some msg => .rejected 1 msg
  | none => .started

theorem validateArgs_single_line (a : SimArgs) (msg : String)
    (h : validateArgs a = some msg) :
    msg.data.all (fun c => c ≠ '\n') = true := by
  rw [validateArgs] at h
  split_ifs at h <;>
    first
      | (rw [← Option.some.inj h]; decide)
      | cases h

theorem validateArgs_none (a : SimArgs) (h : validateArgs a = none) :
    ¬ a.interval ≤ 0 ∧ ¬ a.ramp_wait < 0 ∧ ¬ a.duration < 0 ∧
    (∀ c, a.count = some c → 0 < c) ∧
    ¬ (a.ramp.isSome ∧ a.ramp_percentages.isSome) ∧
    ¬ (¬ a.disable_dashboard ∧ a.metrics_refresh ≤ 0) := by
  rw [validateArgs] at h
  split_ifs at h with h1 h2 h3 h4 h5 h6 h7
  refine ⟨h1, h2, h3, ?_, ?_, ?_⟩
  · intro c hc
    rw [countInvalid.eq_def, hc] at h5
    simpa using h5
  · intro hcontra
    exact h6 (by simpa using hcontra)
  · intro hcontra
    apply h7
    simp only [Bool.and_eq_true, Bool.not_eq_true', decide_eq_true_eq]
    exact ⟨by simpa using hcontra.1, hcontra.2⟩

/-- C6: whenever `interval ≤ 0`, `ramp-wait < 0`, `duration < 0`,
`count ≤ 0` (when supplied), `metrics-refresh ≤ 0` with the dashboard
enabled, or both `--ramp` and `--ramp-percentages` are supplied, the
validation prologue rejects the run — exit code 1, single-line message —
before any worker (hence any MQTT connection) is created. -/
theorem config_validation_rejects (a : SimArgs)
    (h : a.interval ≤ 0 ∨ a.ramp_wait < 0 ∨ a.duration < 0 ∨
      (∃ c, a.count = some c ∧ c ≤ 0) ∨
      (¬ a.disable_dashboard ∧ a.metrics_refresh ≤ 0) ∨
      (a.ramp.isSome ∧ a.ramp_percentages.isSome)) :
    ∃ msg, runSimulationPrologue a = .rejected 1 msg ∧
      msg.data.all (fun c => c ≠ '\n') = true := by
  cases hv : validateArgs a with
  | some msg =>
    refine ⟨msg, ?_, validateArgs_single_line a msg hv⟩
    rw [runSimulationPrologue, hv]
  | none =>
    exfalso
    obtain ⟨h1, h2, h3, h4, h5, h6⟩ := validateArgs_none a hv
    rcases h with h | h | h | ⟨c, hc, hcle⟩ | h | h
    exacts [h1 h, h2 h, h3 h, absurd (h4 c hc) (by omega), h6 h, h5 h]

/-- Witness for C6: `interval = 0` is rejected. -/
theorem config_validation_rejects_witness :
    ∃ msg, runSimulationPrologue
      { interval := 0, ramp_wait := 0, duration := 0, device_count := 1,
        count := none, ramp := none, ramp_percentages := none,
        metrics_refresh := 2000, disable_dashboard := false } =
        .rejected 1 msg ∧
      msg.data.all (fun c => c ≠ '\n') = true :=
  config_validation_rejects _ (Or.inl (by norm_num))

end MqttStress

namespace MetricsServer

/-- The fields of a shard-reported snapshot read by
`GlobalMetricsCollector.summary` (metrics_server.py lines 345-394).  ISO
timestamps compare lexicographically, so `timestamp` is modelled as a
number with `0` for missing/empty; the `disconnect_causes` dict is an
association list. -/
structure ShardSnapshot where
  timestamp : Nat
  uptime_seconds : ℚ
  elapsed_seconds : ℚ
  total_devices : Nat
  active_clients : Nat
  connected_devices : Nat
  peak_connected_devices : Nat
  failed_devices : Nat
  successful_publishes : Nat
  failed_publishes : Nat
  avg_latency_ms : Option ℚ
  p50_latency_ms : Option ℚ
  p95_latency_ms : Option ℚ
  p99_latency_ms : Option ℚ
  messages_per_second : ℚ
  bandwidth_mbps : ℚ
  channels_in_use : Nat
  bytes_sent : Nat
  data_volume_mb : ℚ
  collapse_time_seconds : Option ℚ
  collapse_reason : Option String
  disconnect_causes : List (String × Nat)

/-- The loop locals of `summary` accumulated over `self._snapshots.values()`. -/
structure MergeAcc where
  total_devices : Nat
  total_connected : Nat
  total_active : Nat
  total_failed_devices : Nat
  total_success : Nat
  total_fail : Nat
  total_bytes : Nat
  total_bandwidth : ℚ
  total_messages_per_second : ℚ
  total_volume_mb : ℚ
  total_channels : Nat
  total_peak_connected : Nat
  weighted_latency : ℚ
  weighted_p50 : ℚ
  weighted_p95 : ℚ
  weighted_p99 : ℚ
  latency_weight : ℚ
  latest_timestamp : Nat
  latest_uptime : ℚ
  latest_elapsed : ℚ
  collapse_time : Option ℚ
  collapse_reasons : List String
  disconnect_counter : String → Nat

def initMergeAcc : MergeAcc :=
  { total_devices := 0
    total_connected := 0
    total_active := 0
    total_failed_devices := 0
    total_success := 0
    total_fail := 0
    total_bytes := 0
    total_bandwidth := 0
    total_messages_per_second := 0
    total_volume_mb := 0
    total_channels := 0
    total_peak_connected := 0
    weighted_latency := 0
    weighted_p50 := 0
    weighted_p95 := 0
    weighted_p99 := 0
    latency_weight := 0
    latest_timestamp := 0
    latest_uptime := 0
    latest_elapsed := 0
    collapse_time := none
    collapse_reasons := []
    disconnect_counter := fun _ => 0 }

/-- Python `if avg_latency is not None and successes > 0: weighted_x += x * successes`
(with the inner `if x is not None` guard for the p50/p95/p99 terms; a missing
value contributes nothing). -/
def latencyContribution (snap : ShardSnapshot) (f : ShardSnapshot → Option ℚ) : ℚ :=
  match snap.avg_latency_ms with
  | none => 0
  | some _ =>
    if 0 < snap.successful_publishes then
      match f snap with
      | some x => x * (snap.successful_publishes : ℚ)
      | none => 0
    else 0

/-- Python `latency_weight += successes` under the same guard. -/
def weightContribution (snap : ShardSnapshot) : ℚ :=
  match snap.avg_latency_ms with
  | none => 0
  | some _ =>
    if 0 < snap.successful_publishes then (snap.successful_publishes : ℚ) else 0

/-- Python `if collapse_value is not None: if collapse_time is None or
collapse_value < collapse_time: collapse_time = collapse_value`. -/
def optMinMerge (acc : Option ℚ) (v : Option ℚ) : Option ℚ :=
  match v with
  | none => acc
  | some c =>
    match acc with
    | none => some c
    | some b => if c < b then some c else some b

/-- Python `if reason: collapse_reasons.add(str(reason))` — the set is
modelled as a duplicate-free list in insertion order. -/
def addReason (reasons : List String) (r : Option String) : List String :=
  match r with
  | none => reasons
  | some r => if r = "" then reasons else if r ∈ reasons then reasons else reasons ++ [r]

/-- Python `for cause, count in shard_disconnects.items():
disconnect_counter[cause] = disconnect_counter.get(cause, 0) + count`. -/
def addCauses (counter : String → Nat) : List (String × Nat) → String → Nat
  | [] => counter
  | (cause, count) :: rest =>
      addCauses (fun x => if x = cause then counter x + count else counter x) rest

/-- Python `latest_timestamp = ts if ts and (not latest or ts > latest)`. -/
def mergeTimestamp (latest : Nat) (ts : Nat) : Nat :=
  if ts ≠ 0 ∧ (latest = 0 ∨ latest < ts) then ts else latest

/-- One iteration of the `summary` merge loop (lines 345-394). -/
def mergeStep (acc : MergeAcc) (snap : ShardSnapshot) : MergeAcc :=
  { total_devices := acc.total_devices + snap.total_devices
    total_connected := acc.total_connected + snap.connected_devices
    total_active := acc.total_active + snap.active_clients
    total_failed_devices := acc.total_failed_devices + snap.failed_devices
    total_success := acc.total_success + snap.successful_publishes
    total_fail := acc.total_fail + snap.failed_publishes
    total_bytes := acc.total_bytes + snap.bytes_sent
    total_bandwidth := acc.total_bandwidth + snap.bandwidth_mbps
    total_messages_per_second := acc.total_messages_per_second + snap.messages_per_second
    total_volume_mb := acc.total_volume_mb + snap.data_volume_mb
    total_channels := acc.total_channels + snap.channels_in_use
    total_peak_connected := acc.total_peak_connected + snap.peak_connected_devices
    weighted_latency := acc.weighted_latency + latencyContribution snap (·.avg_latency_ms)
    weighted_p50 := acc.weighted_p50 + latencyContribution snap (·.p50_latency_ms)
    weighted_p95 := acc.weighted_p95 + latencyContribution snap (·.p95_latency_ms)
    weighted_p99 := acc.weighted_p99 + latencyContribution snap (·.p99_latency_ms)
    latency_weight := acc.latency_weight + weightContribution snap
    latest_timestamp := mergeTimestamp acc.latest_timestamp snap.timestamp
    latest_uptime := max acc.latest_uptime snap.uptime_seconds
    latest_elapsed := max acc.latest_elapsed snap.elapsed_seconds
    collapse_time := optMinMerge acc.collapse_time snap.collapse_time_seconds
    collapse_reasons := addReason acc.collapse_reasons snap.collapse_reason
    disconnect_counter := addCauses acc.disconnect_counter snap.disconnect_causes }

/-- The merged snapshot served by the orchestrator.  `collapse_reasons` is
kept as the reason set (the Python code renders it sorted and comma-joined);
`disconnect_causes` is the merged dict's count function. -/
structure GlobalSummary where
  timestamp : Nat
  uptime_seconds : ℚ
  elapsed_seconds : ℚ
  total_devices : Nat
  active_clients : Nat
  connected_devices : Nat
  peak_connected_devices : Nat
  failed_devices : Nat
  successful_publishes : Nat
  failed_publishes : Nat
  avg_latency_ms : Option ℚ
  p50_latency_ms : Option ℚ
  p95_latency_ms : Option ℚ
  p99_latency_ms : Option ℚ
  messages_per_second : ℚ
  bandwidth_mbps : ℚ
  avg_send_rate_per_device : ℚ
  avg_messages_per_device : ℚ
  channels_in_use : Nat
  bytes_sent : Nat
  data_volume_mb : ℚ
  collapse_time_seconds : Option ℚ
  collapse_reasons : List String
  disconnect_causes : String → Nat

/-- The summary dict built from the accumulated locals (lines 396-434). -/
def finalizeSummary (acc : MergeAcc) : GlobalSummary :=
  { timestamp := acc.latest_timestamp
    uptime_seconds := acc.latest_uptime
    elapsed_seconds := acc.latest_elapsed
    total_devices := acc.total_devices
    active_clients := acc.total_active
    connected_devices := acc.total_connected
    peak_connected_devices := acc.total_peak_connected
    failed_devices := acc.total_failed_devices
    successful_publishes := acc.total_success
    failed_publishes := acc.total_fail
    avg_latency_ms :=
      if acc.latency_weight = 0 then none
      else some (acc.weighted_latency / acc.latency_weight)
    p50_latency_ms :=
      if acc.latency_weight = 0 then none
      else some (acc.weighted_p50 / acc.latency_weight)
    p95_latency_ms :=
      if acc.latency_weight = 0 then none
      else some (acc.weighted_p95 / acc.latency_weight)
    p99_latency_ms :=
      if acc.latency_weight = 0 then none
      else some (acc.weighted_p99 / acc.latency_weight)
    messages_per_second := acc.total_messages_per_second
    bandwidth_mbps := acc.total_bandwidth
    avg_send_rate_per_device :=
      if 0 < acc.latest_elapsed ∧ 0 < acc.total_devices then
        ((acc.total_success : ℚ) / acc.latest_elapsed) / (acc.total_devices : ℚ)
      else 0
    avg_messages_per_device :=
      if acc.total_devices = 0 then 0
      else (acc.total_success : ℚ) / (acc.total_devices : ℚ)
    channels_in_use := acc.total_channels
    bytes_sent := acc.total_bytes
    data_volume_mb := acc.total_volume_mb
    collapse_time_seconds := acc.collapse_time
    collapse_reasons := acc.collapse_reasons
    disconnect_causes := acc.disconnect_counter }

/-- Embeds `GlobalMetricsCollector._empty_summary` (lines 436-462). -/
def emptySummary : GlobalSummary :=
  { timestamp := 0
    uptime_seconds := 0
    elapsed_seconds := 0
    total_devices := 0
    active_clients := 0
    connected_devices := 0
    peak_connected_devices := 0
    failed_devices := 0
    successful_publishes := 0
    failed_publishes := 0
    avg_latency_ms := none
    p50_latency_ms := none
    p95_latency_ms := none
    p99_latency_ms := none
    messages_per_second := 0
    bandwidth_mbps := 0
    avg_send_rate_per_device := 0
    avg_messages_per_device := 0
    channels_in_use := 0
    bytes_sent := 0
    data_volume_mb := 0
    collapse_time_seconds := none
    collapse_reasons := []
    disconnect_causes := fun _ => 0 }

/-- Embeds `GlobalMetricsCollector.summary` (lines 317-434) over the current
snapshot values: the empty store short-circuits to `_empty_summary`. -/
def summaryOf (snaps : List ShardSnapshot) : GlobalSummary :=
  if snaps.isEmpty then emptySummary
  else finalizeSummary (snaps.foldl mergeStep initMergeAcc)

/-- The collector state: `self._snapshots`, keyed by shard id in insertion
order (the merge only reads the values). -/
abbrev GlobalState := List (String × ShardSnapshot)

/-- Embeds `GlobalMetricsCollector.ingest`: the latest payload replaces the prior
one for the same shard id. -/
def ingest (gs : GlobalState) (shard_id : String) (snap : ShardSnapshot) : GlobalState :=
  if gs.any (fun p => p.1 = shard_id) then
    gs.map (fun p => if p.1 = shard_id then (shard_id, snap) else p)
  else gs ++ [(shard_id, snap)]

/-- The `summary()` value served by `GET /api/metrics` on the orchestrator. -/
def collectorSummary (gs : GlobalState) : GlobalSummary :=
  summaryOf (gs.map (fun p => p.2))

/-- The shards contributing to the latency means: those reporting a non-null
`avg_latency_ms` with positive `successful_publishes`. -/
def qualifying (snaps : List ShardSnapshot) : List ShardSnapshot :=
  snaps.filter (fun s => s.avg_latency_ms.isSome && decide (0 < s.successful_publishes))

def qualifyingWeight (snaps : List ShardSnapshot) : ℚ :=
  ((qualifying snaps).map (fun s => (s.successful_publishes : ℚ))).sum

/-- The claim's merge rule for a latency statistic: the successes-weighted
mean of the per-shard values over the qualifying shards (`none` when no
shard qualifies). -/
def weightedMeanOver (snaps : List ShardSnapshot) (f : ShardSnapshot → Option ℚ) : Option ℚ :=
  if qualifyingWeight snaps = 0 then none
  else
    some (((qualifying snaps).map
      (fun s => (f s).getD 0 * (s.successful_publishes : ℚ))).sum / qualifyingWeight snaps)

/-- Total count a shard's `disconnect_causes` dict assigns to cause `c`. -/
def causeTotal (causes : List (String × Nat)) (c : String) : Nat :=
  ((causes.filter (fun p => decide (p.1 = c))).map (fun p => p.2)).sum

theorem foldl_total_success (snaps : List ShardSnapshot) (acc : MergeAcc) :
    (snaps.foldl mergeStep acc).total_success =
      acc.total_success + (snaps.map (fun s => s.successful_publishes)).sum := by
  induction snaps generalizing acc with
  | nil => simp
  | cons s rest ih =>
    rw [List.foldl_cons, ih, List.map_cons, List.sum_cons]
    show acc.total_success + s.successful_publishes + _ = _
    omega

theorem foldl_total_fail (snaps : List ShardSnapshot) (acc : MergeAcc) :
    (snaps.foldl mergeStep acc).total_fail =
      acc.total_fail + (snaps.map (fun s => s.failed_publishes)).sum := by
  induction snaps generalizing acc with
  | nil => simp
  | cons s rest ih =>
    rw [List.foldl_cons, ih, List.map_cons, List.sum_cons]
    show acc.total_fail + s.failed_publishes + _ = _
    omega

theorem foldl_total_bytes (snaps : List ShardSnapshot) (acc : MergeAcc) :
    (snaps.foldl mergeStep acc).total_bytes =
      acc.total_bytes + (snaps.map (fun s => s.bytes_sent)).sum := by
  induction snaps generalizing acc with
  | nil => simp
  | cons s rest ih =>
    rw [List.foldl_cons, ih, List.map_cons, List.sum_cons]
    show acc.total_bytes + s.bytes_sent + _ = _
    omega

theorem foldl_weighted_latency (snaps : List ShardSnapshot) (acc : MergeAcc) :
    (snaps.foldl mergeStep acc).weighted_latency =
      acc.weighted_latency +
        (snaps.map (fun s => latencyContribution s (fun t => t.avg_latency_ms))).sum := by
  induction snaps generalizing acc with
  | nil => simp
  | cons s rest ih =>
    rw [List.foldl_cons, ih, List.map_cons, List.sum_cons]
    show acc.weighted_latency + latencyContribution s (fun t => t.avg_latency_ms) + _ = _
    ring

theorem foldl_weighted_p50 (snaps : List ShardSnapshot) (acc : MergeAcc) :
    (snaps.foldl mergeStep acc).weighted_p50 =
      acc.weighted_p50 +
        (snaps.map (fun s => latencyContribution s (fun t => t.p50_latency_ms))).sum := by
  induction snaps generalizing acc with
  | nil => simp
  | cons s rest ih =>
    rw [List.foldl_cons, ih, List.map_cons, List.sum_cons]
    show acc.weighted_p50 + latencyContribution s (fun t => t.p50_latency_ms) + _ = _
    ring

theorem foldl_weighted_p95 (snaps : List ShardSnapshot) (acc : MergeAcc) :
    (snaps.foldl mergeStep acc).weighted_p95 =
      acc.weighted_p95 +
        (snaps.map (fun s => latencyContribution s (fun t => t.p95_latency_ms))).sum := by
  induction snaps generalizing acc with
  | nil => simp
  | cons s rest ih =>
    rw [List.foldl_cons, ih, List.map_cons, List.sum_cons]
    show acc.weighted_p95 + latencyContribution s (fun t => t.p95_latency_ms) + _ = _
    ring

theorem foldl_weighted_p99 (snaps : List ShardSnapshot) (acc : MergeAcc) :
    (snaps.foldl mergeStep acc).weighted_p99 =
      acc.weighted_p99 +
        (snaps.map (fun s => latencyContribution s (fun t => t.p99_latency_ms))).sum := by
  induction snaps generalizing acc with
  | nil => simp
  | cons s rest ih =>
    rw [List.foldl_cons, ih, List.map_cons, List.sum_cons]
    show acc.weighted_p99 + latencyContribution s (fun t => t.p99_latency_ms) + _ = _
    ring

theorem foldl_latency_weight (snaps : List ShardSnapshot) (acc : MergeAcc) :
    (snaps.foldl mergeStep acc).latency_weight =
      acc.latency_weight + (snaps.map weightContribution).sum := by
  induction snaps generalizing acc with
  | nil => simp
  | cons s rest ih =>
    rw [List.foldl_cons, ih, List.map_cons, List.sum_cons]
    show acc.latency_weight + weightContribution s + _ = _
    ring

theorem latencyContribution_eq (s : ShardSnapshot) (f : ShardSnapshot → Option ℚ) :
    latencyContribution s f =
      if s.avg_latency_ms.isSome ∧ 0 < s.successful_publishes then
        (f s).getD 0 * (s.successful_publishes : ℚ)
      else 0 := by
  cases havg : s.avg_latency_ms with
  | none => simp [latencyContribution, havg]
  | some a =>
    by_cases hsucc : 0 < s.successful_publishes
    · cases hf : f s with
      | none => simp [latencyContribution, havg, hsucc, hf]
      | some x => simp [latencyContribution, havg, hsucc, hf]
    · simp [latencyContribution, havg, hsucc]

theorem weightContribution_eq (s : ShardSnapshot) :
    weightContribution s =
      if s.avg_latency_ms.isSome ∧ 0 < s.successful_publishes then
        (s.successful_publishes : ℚ)
      else 0 := by
  cases havg : s.avg_latency_ms with
  | none => simp [weightContribution, havg]
  | some a =>
    by_cases hsucc : 0 < s.successful_publishes <;>
      simp [weightContribution, havg, hsucc]

theorem contribution_sum (snaps : List ShardSnapshot) (f : ShardSnapshot → Option ℚ) :
    (snaps.map (fun s => latencyContribution s f)).sum =
      ((qualifying snaps).map
        (fun s => (f s).getD 0 * (s.successful_publishes : ℚ))).sum := by
  induction snaps with
  | nil => rfl
  | cons s rest ih =>
    rw [List.map_cons, List.sum_cons, ih]
    simp only [qualifying]
    rw [List.filter_cons]
    by_cases hq : s.avg_latency_ms.isSome ∧ 0 < s.successful_publishes
    · rw [latencyContribution_eq, if_pos hq]
      rw [if_pos (show (s.avg_latency_ms.isSome && decide (0 < s.successful_publishes)) = true
        by simp [hq.1, hq.2])]
      rw [List.map_cons, List.sum_cons]
    · rw [latencyContribution_eq, if_neg hq]
      have hfalse : (s.avg_latency_ms.isSome && decide (0 < s.successful_publishes)) = false := by
        rcases not_and_or.mp hq with h | h <;> simp [h]
      rw [hfalse]
      simp

theorem weight_sum (snaps : List ShardSnapshot) :
    (snaps.map weightContribution).sum = qualifyingWeight snaps := by
  induction snaps with
  | nil => rfl
  | cons s rest ih =>
    rw [List.map_cons, List.sum_cons, ih]
    simp only [qualifyingWeight, qualifying]
    rw [List.filter_cons]
    by_cases hq : s.avg_latency_ms.isSome ∧ 0 < s.successful_publishes
    · rw [weightContribution_eq, if_pos hq]
      rw [if_pos (show (s.avg_latency_ms.isSome && decide (0 < s.successful_publishes)) = true
        by simp [hq.1, hq.2])]
      rw [List.map_cons, List.sum_cons]
    · rw [weightContribution_eq, if_neg hq]
      have hfalse : (s.avg_latency_ms.isSome && decide (0 < s.successful_publishes)) = false := by
        rcases not_and_or.mp hq with h | h <;> simp [h]
      rw [hfalse]
      simp

theorem addCauses_apply (causes : List (String × Nat)) (counter : String → Nat) (c : String) :
    addCauses counter causes c = counter c + causeTotal causes c := by
  induction causes generalizing counter with
  | nil => simp [addCauses, causeTotal]
  | cons p rest ih =>
    obtain ⟨cause, count⟩ := p
    rw [addCauses, ih]
    simp only [causeTotal]
    rw [List.filter_cons]
    by_cases hc : cause = c
    · subst hc
      rw [if_pos (show decide (cause = cause) = true by simp)]
      rw [List.map_cons, List.sum_cons]
      simp only [if_true]
      omega
    · have hc' : ¬ c = cause := fun h => hc h.symm
      rw [if_neg (show ¬ decide (cause = c) = true by simp [hc])]
      simp only [if_neg hc']

theorem foldl_causes (snaps : List ShardSnapshot) (acc : MergeAcc) (c : String) :
    (snaps.foldl mergeStep acc).disconnect_counter c =
      acc.disconnect_counter c +
        (snaps.map (fun s => causeTotal s.disconnect_causes c)).sum := by
  induction snaps generalizing acc with
  | nil => simp
  | cons s rest ih =>
    rw [List.foldl_cons, ih, List.map_cons, List.sum_cons]
    show addCauses acc.disconnect_counter s.disconnect_causes c + _ = _
    rw [addCauses_apply]
    omega

theorem optMinMerge_eq_none (a v : Option ℚ) :
    optMinMerge a v = none ↔ a = none ∧ v = none := by
  cases v with
  | none => cases a <;> simp [optMinMerge]
  | some c =>
    cases a with
    | none => simp [optMinMerge]
    | some b =>
      rw [optMinMerge]
      split <;> simp

theorem optMinMerge_some_cases (a v : Option ℚ) (x : ℚ) (h : optMinMerge a v = some x) :
    a = some x ∨ v = some x := by
  cases v with
  | none => exact Or.inl h
  | some c =>
    cases a with
    | none => exact Or.inr h
    | some b =>
      rw [optMinMerge] at h
      split at h
      · exact Or.inr h
      · exact Or.inl h

theorem optMinMerge_left_le (a v : Option ℚ) (b : ℚ) (h : a = some b) :
    ∃ m, optMinMerge a v = some m ∧ m ≤ b := by
  subst h
  cases v with
  | none => exact ⟨b, rfl, le_rfl⟩
  | some c =>
    rw [optMinMerge]
    split
    · exact ⟨c, rfl, by linarith⟩
    · exact ⟨b, rfl, le_rfl⟩

theorem optMinMerge_right_le (a : Option ℚ) (c : ℚ) :
    ∃ m, optMinMerge a (some c) = some m ∧ m ≤ c := by
  cases a with
  | none => exact ⟨c, rfl, le_rfl⟩
  | some b =>
    rw [optMinMerge]
    split
    · exact ⟨c, rfl, le_rfl⟩
    · next hbc => exact ⟨b, rfl, by linarith [not_lt.mp hbc]⟩

theorem foldl_collapse_none_iff (snaps : List ShardSnapshot) (acc : MergeAcc) :
    (snaps.foldl mergeStep acc).collapse_time = none ↔
      acc.collapse_time = none ∧ ∀ s ∈ snaps, s.collapse_time_seconds = none := by
  induction snaps generalizing acc with
  | nil => simp
  | cons s rest ih =>
    rw [List.foldl_cons, ih,
      show (mergeStep acc s).collapse_time =
        optMinMerge acc.collapse_time s.collapse_time_seconds from rfl,
      optMinMerge_eq_none]
    constructor
    · rintro ⟨⟨ha, hs⟩, hrest⟩
      refine ⟨ha, ?_⟩
      intro t ht
      rcases List.mem_cons.mp ht with rfl | ht
      · exact hs
      · exact hrest t ht
    · rintro ⟨ha, hall⟩
      exact ⟨⟨ha, hall s (List.mem_cons_self s rest)⟩,
        fun t ht => hall t (List.mem_cons_of_mem s ht)⟩

theorem foldl_collapse_some (snaps : List ShardSnapshot) (acc : MergeAcc) (v : ℚ)
    (h : (snaps.foldl mergeStep acc).collapse_time = some v) :
    (acc.collapse_time = some v ∨ ∃ s ∈ snaps, s.collapse_time_seconds = some v) ∧
    (∀ b, acc.collapse_time = some b → v ≤ b) ∧
    (∀ s ∈ snaps, ∀ c, s.collapse_time_seconds = some c → v ≤ c) := by
  induction snaps generalizing acc with
  | nil =>
    have h' : acc.collapse_time = some v := h
    refine ⟨Or.inl h', ?_, ?_⟩
    · intro b hb
      rw [h'] at hb
      exact le_of_eq (Option.some.inj hb)
    · intro s hs
      cases hs
  | cons s rest ih =>
    have hstep : (mergeStep acc s).collapse_time =
        optMinMerge acc.collapse_time s.collapse_time_seconds := rfl
    rw [List.foldl_cons] at h
    obtain ⟨hmem, hacc, hrest⟩ := ih (mergeStep acc s) h
    rw [hstep] at hmem hacc
    refine ⟨?_, ?_, ?_⟩
    · rcases hmem with hm | ⟨t, ht, hc⟩
      · rcases optMinMerge_some_cases _ _ _ hm with hl | hr
        · exact Or.inl hl
        · exact Or.inr ⟨s, List.mem_cons_self s rest, hr⟩
      · exact Or.inr ⟨t, List.mem_cons_of_mem s ht, hc⟩
    · intro b hb
      obtain ⟨m, hm, hmb⟩ := optMinMerge_left_le acc.collapse_time
        s.collapse_time_seconds b hb
      exact le_trans (hacc m hm) hmb
    · intro t ht c hc
      rcases List.mem_cons.mp ht with rfl | ht
      · obtain ⟨m, hm, hmc⟩ := optMinMerge_right_le acc.collapse_time c
        refine le_trans (hacc m ?_) hmc
        rw [hc]
        exact hm
      · exact hrest t ht c hc

/-- C2: the merged summary has `successful_publishes`, `failed_publishes`,
`bytes_sent` and element-wise `disconnect_causes` equal to the sums across
the ingested shard snapshots; each latency statistic equals the
successes-weighted mean over the shards reporting a non-null average with
positive successes (`none` when there is no such shard); and
`collapse_time_seconds` is the minimum of the reported shard collapse
times, absent exactly when no shard reports one. -/
theorem global_summary_merge (snaps : List ShardSnapshot) :
    (summaryOf snaps).successful_publishes =
      (snaps.map (fun s => s.successful_publishes)).sum ∧
    (summaryOf snaps).failed_publishes =
      (snaps.map (fun s => s.failed_publishes)).sum ∧
    (summaryOf snaps).bytes_sent = (snaps.map (fun s => s.bytes_sent)).sum ∧
    (∀ c, (summaryOf snaps).disconnect_causes c =
      (snaps.map (fun s => causeTotal s.disconnect_causes c)).sum) ∧
    (summaryOf snaps).avg_latency_ms = weightedMeanOver snaps (fun s => s.avg_latency_ms) ∧
    (summaryOf snaps).p50_latency_ms = weightedMeanOver snaps (fun s => s.p50_latency_ms) ∧
    (summaryOf snaps).p95_latency_ms = weightedMeanOver snaps (fun s => s.p95_latency_ms) ∧
    (summaryOf snaps).p99_latency_ms = weightedMeanOver snaps (fun s => s.p99_latency_ms) ∧
    ((summaryOf snaps).collapse_time_seconds = none ↔
      ∀ s ∈ snaps, s.collapse_time_seconds = none) ∧
    (∀ v, (summaryOf snaps).collapse_time_seconds = some v →
      (∃ s ∈ snaps, s.collapse_time_seconds = some v) ∧
      ∀ s ∈ snaps, ∀ c, s.collapse_time_seconds = some c → v ≤ c) := by
  by_cases hempty : snaps = []
  · subst hempty
    refine ⟨rfl, rfl, rfl, fun c => rfl, ?_, ?_, ?_, ?_, ?_, ?_⟩
    · simp [summaryOf, emptySummary, weightedMeanOver, qualifyingWeight, qualifying]
    · simp [summaryOf, emptySummary, weightedMeanOver, qualifyingWeight, qualifying]
    · simp [summaryOf, emptySummary, weightedMeanOver, qualifyingWeight, qualifying]
    · simp [summaryOf, emptySummary, weightedMeanOver, qualifyingWeight, qualifying]
    · simp [summaryOf, emptySummary]
    · intro v hv
      simp [summaryOf, emptySummary] at hv
  · have hb : ¬ snaps.isEmpty = true := by
      simpa [List.isEmpty_iff] using hempty
    have hsum : summaryOf snaps =
        finalizeSummary (snaps.foldl mergeStep initMergeAcc) := by
      rw [summaryOf, if_neg hb]
    have hw : (snaps.foldl mergeStep initMergeAcc).latency_weight =
        qualifyingWeight snaps := by
      rw [foldl_latency_weight, weight_sum]
      show (0 : ℚ) + _ = _
      rw [zero_add]
    refine ⟨?_, ?_, ?_, ?_, ?_, ?_, ?_, ?_, ?_, ?_⟩
    · rw [hsum]
      show (snaps.foldl mergeStep initMergeAcc).total_success = _
      rw [foldl_total_success]
      show 0 + _ = _
      omega
    · rw [hsum]
      show (snaps.foldl mergeStep initMergeAcc).total_fail = _
      rw [foldl_total_fail]
      show 0 + _ = _
      omega
    · rw [hsum]
      show (snaps.foldl mergeStep initMergeAcc).total_bytes = _
      rw [foldl_total_bytes]
      show 0 + _ = _
      omega
    · intro c
      rw [hsum]
      show (snaps.foldl mergeStep initMergeAcc).disconnect_counter c = _
      rw [foldl_causes]
      show 0 + _ = _
      omega
    · rw [hsum]
      show (if (snaps.foldl mergeStep initMergeAcc).latency_weight = 0 then none
        else some ((snaps.foldl mergeStep initMergeAcc).weighted_latency /
          (snaps.foldl mergeStep initMergeAcc).latency_weight)) = _
      rw [hw, weightedMeanOver, foldl_weighted_latency, contribution_sum]
      show (if _ then _ else some ((0 + _) / _)) = _
      rw [zero_add]
    · rw [hsum]
      show (if (snaps.foldl mergeStep initMergeAcc).latency_weight = 0 then none
        else some ((snaps.foldl mergeStep initMergeAcc).weighted_p50 /
          (snaps.foldl mergeStep initMergeAcc).latency_weight)) = _
      rw [hw, weightedMeanOver, foldl_weighted_p50, contribution_sum]
      show (if _ then _ else some ((0 + _) / _)) = _
      rw [zero_add]
    · rw [hsum]
      show (if (snaps.foldl mergeStep initMergeAcc).latency_weight = 0 then none
        else some ((snaps.foldl mergeStep initMergeAcc).weighted_p95 /
          (snaps.foldl mergeStep initMergeAcc).latency_weight)) = _
      rw [hw, weightedMeanOver, foldl_weighted_p95, contribution_sum]
      show (if _ then _ else some ((0 + _) / _)) = _
      rw [zero_add]
    · rw [hsum]
      show (if (snaps.foldl mergeStep initMergeAcc).latency_weight = 0 then none
        else some ((snaps.foldl mergeStep initMergeAcc).weighted_p99 /
          (snaps.foldl mergeStep initMergeAcc).latency_weight)) = _
      rw [hw, weightedMeanOver, foldl_weighted_p99, contribution_sum]
      show (if _ then _ else some ((0 + _) / _)) = _
      rw [zero_add]
    · rw [hsum]
      show (snaps.foldl mergeStep initMergeAcc).collapse_time = none ↔ _
      rw [foldl_collapse_none_iff]
      simp [initMergeAcc]
    · intro v hv
      rw [hsum] at hv
      have hv' : (snaps.foldl mergeStep initMergeAcc).collapse_time = some v := hv
      obtain ⟨hmem, hlb⟩ := (foldl_collapse_some snaps initMergeAcc v hv').imp id
        (fun h => h.2)
      constructor
      · rcases hmem with hinit | hfound
        · cases hinit
        · exact hfound
      · exact hlb

/-- C10: before any shard report has been ingested, `summary()` returns the
complete empty summary — all counters zero, all latency statistics `None`,
collapse fields absent, and an empty `disconnect_causes` dict — so
`GET /api/metrics` on the orchestrator is well-defined from the start. -/
theorem collector_summary_before_first_report :
    collectorSummary [] = emptySummary ∧
    (collectorSummary []).successful_publishes = 0 ∧
    (collectorSummary []).failed_publishes = 0 ∧
    (collectorSummary []).bytes_sent = 0 ∧
    (collectorSummary []).total_devices = 0 ∧
    (collectorSummary []).active_clients = 0 ∧
    (collectorSummary []).connected_devices = 0 ∧
    (collectorSummary []).peak_connected_devices = 0 ∧
    (collectorSummary []).failed_devices = 0 ∧
    (collectorSummary []).messages_per_second = 0 ∧
    (collectorSummary []).bandwidth_mbps = 0 ∧
    (collectorSummary []).data_volume_mb = 0 ∧
    (collectorSummary []).uptime_seconds = 0 ∧
    (collectorSummary []).elapsed_seconds = 0 ∧
    (collectorSummary []).channels_in_use = 0 ∧
    (collectorSummary []).avg_send_rate_per_device = 0 ∧
    (collectorSummary []).avg_messages_per_device = 0 ∧
    (collectorSummary []).avg_latency_ms = none ∧
    (collectorSummary []).p50_latency_ms = none ∧
    (collectorSummary []).p95_latency_ms = none ∧
    (collectorSummary []).p99_latency_ms = none ∧
    (collectorSummary []).collapse_time_seconds = none ∧
    (collectorSummary []).collapse_reasons = [] ∧
    ∀ c, (collectorSummary []).disconnect_causes c = 0 :=
  ⟨rfl, rfl, rfl, rfl, rfl, rfl, rfl, rfl, rfl, rfl, rfl, rfl, rfl, rfl, rfl,
    rfl, rfl, rfl, rfl, rfl, rfl, rfl, rfl, fun c => rfl⟩

end MetricsServer

namespace MqttStress

/-- Witness for C1 (amended) on a concrete trace with a publish failure. -/
theorem collapse_first_trigger_only_witness :
    (runAgg 2 [AggEvent.connected "a",
      AggEvent.publishFailure "a" (some "boom")]).collapseReason =
      [AggEvent.connected "a",
        AggEvent.publishFailure "a" (some "boom")].findSome? triggerReason ∧
    (runAgg 2 [AggEvent.connected "a",
      AggEvent.publishFailure "a" (some "boom")]).collapsedAt =
      List.findIdx? (fun e => (triggerReason e).isSome)
        [AggEvent.connected "a", AggEvent.publishFailure "a" (some "boom")] 0 ∧
    (runAgg 2 [AggEvent.connected "a",
      AggEvent.publishFailure "a" (some "boom")]).collapseReason ≠ some "" :=
  collapse_first_trigger_only 2
    [AggEvent.connected "a", AggEvent.publishFailure "a" (some "boom")]

/-- Witness for C7 on a concrete trace. -/
theorem aggregator_invariants_witness :
    (runAgg 2 [AggEvent.connected "a",
      AggEvent.disconnected "a" (some "oops") false]).activeDevices ⊆
      (runAgg 2 [AggEvent.connected "a",
        AggEvent.disconnected "a" (some "oops") false]).seenDevices ∧
    (runAgg 2 [AggEvent.connected "a",
      AggEvent.disconnected "a" (some "oops") false]).activeDevices.card ≤
      (runAgg 2 [AggEvent.connected "a",
        AggEvent.disconnected "a" (some "oops") false]).peakConnected ∧
    (runAgg 2 [AggEvent.connected "a",
      AggEvent.disconnected "a" (some "oops") false]).peakConnected ≤
      max (runAgg 2 [AggEvent.connected "a",
          AggEvent.disconnected "a" (some "oops") false]).totalDevices
        (runAgg 2 [AggEvent.connected "a",
          AggEvent.disconnected "a" (some "oops") false]).seenDevices.card :=
  aggregator_invariants 2
    [AggEvent.connected "a", AggEvent.disconnected "a" (some "oops") false]

end MqttStress

namespace MetricsServer

/-- A concrete shard snapshot used by the C2 witness. -/
def sampleShard : ShardSnapshot :=
  { timestamp := 1
    uptime_seconds := 10
    elapsed_seconds := 10
    total_devices := 2
    active_clients := 2
    connected_devices := 2
    peak_connected_devices := 2
    failed_devices := 0
    successful_publishes := 4
    failed_publishes := 1
    avg_latency_ms := some 12
    p50_latency_ms := some 11
    p95_latency_ms := some 14
    p99_latency_ms := some 15
    messages_per_second := 1
    bandwidth_mbps := 1
    channels_in_use := 2
    bytes_sent := 100
    data_volume_mb := 1
    collapse_time_seconds := some 5
    collapse_reason := some "network"
    disconnect_causes := [("network", 1)] }

/-- Witness for C2 on a one-shard store. -/
theorem global_summary_merge_witness :
    (summaryOf [sampleShard]).successful_publishes =
      ([sampleShard].map (fun s => s.successful_publishes)).sum ∧
    (summaryOf [sampleShard]).failed_publishes =
      ([sampleShard].map (fun s => s.failed_publishes)).sum ∧
    (summaryOf [sampleShard]).bytes_sent =
      ([sampleShard].map (fun s => s.bytes_sent)).sum ∧
    (∀ c, (summaryOf [sampleShard]).disconnect_causes c =
      ([sampleShard].map (fun s => causeTotal s.disconnect_causes c)).sum) ∧
    (summaryOf [sampleShard]).avg_latency_ms =
      weightedMeanOver [sampleShard] (fun s => s.avg_latency_ms) ∧
    (summaryOf [sampleShard]).p50_latency_ms =
      weightedMeanOver [sampleShard] (fun s => s.p50_latency_ms) ∧
    (summaryOf [sampleShard]).p95_latency_ms =
      weightedMeanOver [sampleShard] (fun s => s.p95_latency_ms) ∧
    (summaryOf [sampleShard]).p99_latency_ms =
      weightedMeanOver [sampleShard] (fun s => s.p99_latency_ms) ∧
    ((summaryOf [sampleShard]).collapse_time_seconds = none ↔
      ∀ s ∈ [sampleShard], s.collapse_time_seconds = none) ∧
    (∀ v, (summaryOf [sampleShard]).collapse_time_seconds = some v →
      (∃ s ∈ [sampleShard], s.collapse_time_seconds = some v) ∧
      ∀ s ∈ [sampleShard], ∀ c, s.collapse_time_seconds = some c → v ≤ c) :=
  global_summary_merge [sampleShard]

/-- Witness for C10: the fresh collector's summary reports zero successes. -/
theorem collector_summary_before_first_report_witness :
    (collectorSummary []).successful_publishes = 0 :=
  collector_summary_before_first_report.2.1

end MetricsServer
